import Mathlib

/-!
Verification development for the InsightsFlow repository.

The development shallowly embeds the parts of the code the claims
concern:

1. the per-region happiness tracker
   (src/backend/agent_listener.py, class HappinessTracker), first as a
   pure function on a record of one region's fields, then as a
   heap-aware model that tracks Python object identity of the three
   list fields, which is needed to reason about the shallow dict copy
   that get_region_snapshot performs;
2. the event aggregation and decision loops of main()
   (LOOP 1: PERCEIVE and ANALYZE, LOOP 2: DECIDE and ACT);
3. the bounded report store of src/frontend/reporter_with_storage.py
   (a deque with maxlen MAX_HISTORY, fed by MyReportHandler.do_POST).

Scores are modelled as rationals: the Python code performs exact
arithmetic on small integer scores and their means, and the claims
under test are order and equality facts about those means, which the
rational model reflects faithfully.
-/

namespace InsightsFlow

/-- Window constant SHORT_TERM_WINDOW = 10 from HappinessTracker. -/
def SHORT_TERM_WINDOW : Nat := 10

/-- Window constant LONG_TERM_WINDOW = 100 from HappinessTracker. -/
def LONG_TERM_WINDOW : Nat := 100

/-- Window constant GRAPH_HISTORY_LENGTH = 50 from HappinessTracker. -/
def GRAPH_HISTORY_LENGTH : Nat := 50

/-- One bounded-window update: append the new element, and if the list now
exceeds the capacity, pop the oldest element from the front.  This is the
list.append followed by the conditional list.pop(0) that
add_sentiment_score performs on each of the three bounded lists. -/
def pushWindow (cap : Nat) (xs : List ℚ) (x : ℚ) : List ℚ :=
  if cap < (xs ++ [x]).length then (xs ++ [x]).tail else xs ++ [x]

/-- The fields of one region's dict in HappinessTracker.regions, with the
three list-valued fields held by value.  The state label is kept as a
string exactly as in the source. -/
structure RegionState where
  short_term_scores : List ℚ
  long_term_scores : List ℚ
  short_term_avg : ℚ
  long_term_avg : ℚ
  was_above : Option Bool
  state : String
  history : List ℚ
deriving Repr, DecidableEq

/-- The default region dict built by HappinessTracker.get_or_create_region
for a region seen for the first time. -/
def initRegion : RegionState :=
  { short_term_scores := []
    long_term_scores := []
    short_term_avg := 0
    long_term_avg := 0
    was_above := none
    state := "MAINTAIN_NEUTRAL"
    history := [] }

/-- HappinessTracker update_state: relabels the region from the moving
average crossover, first checking whether the long window is primed, then
whether the was_above baseline exists, then the four crossover cases. -/
def update_state (rd : RegionState) : RegionState :=
  let is_above : Bool := decide (rd.long_term_avg < rd.short_term_avg)
  if rd.long_term_scores.length < LONG_TERM_WINDOW then
    { rd with state := "PRIMING" }
  else
    match rd.was_above with
    | none => { rd with was_above := some is_above }
    | some wa =>
      let st :=
        if is_above && !wa then "TRENDING_UP"
        else if !is_above && wa then "TRENDING_DOWN"
        else if is_above then "MAINTAIN_GOOD"
        else "MAINTAIN_POOR"
      { rd with state := st, was_above := some is_above }

/-- First half of HappinessTracker.add_sentiment_score: push the score
into both score windows and recompute the two means over the current
window contents, guarded by the source's non-emptiness checks (the
region dict as it stands right before the update_state call). -/
def pushAndAverage (rd : RegionState) (score : ℚ) : RegionState :=
  let sts := pushWindow SHORT_TERM_WINDOW rd.short_term_scores score
  let lts := pushWindow LONG_TERM_WINDOW rd.long_term_scores score
  let sAvg := if sts.isEmpty then rd.short_term_avg else sts.sum / (sts.length : ℚ)
  let lAvg := if lts.isEmpty then rd.long_term_avg else lts.sum / (lts.length : ℚ)
  { rd with
    short_term_scores := sts
    long_term_scores := lts
    short_term_avg := sAvg
    long_term_avg := lAvg }

/-- HappinessTracker.add_sentiment_score restricted to the one region dict
it touches: push the score into both score windows, recompute the two
means, update the state label, then record the short-term mean in the
graphing history window. -/
def add_sentiment_score (rd : RegionState) (score : ℚ) : RegionState :=
  let rd1 := update_state (pushAndAverage rd score)
  { rd1 with history := pushWindow GRAPH_HISTORY_LENGTH rd1.history rd1.short_term_avg }

/-- Feeding a whole sequence of scores to one region, oldest first. -/
def applyScores (rd : RegionState) (ss : List ℚ) : RegionState :=
  ss.foldl add_sentiment_score rd

/-- One of the four post-priming trend labels. -/
def stateFour (st : String) : Prop :=
  st = "TRENDING_UP" ∨ st = "TRENDING_DOWN" ∨ st = "MAINTAIN_GOOD" ∨ st = "MAINTAIN_POOR"

/-- Invariant relating a region's fields to the number of scores it has
received so far. -/
def TrackInv (k : Nat) (rd : RegionState) : Prop :=
  rd.long_term_scores.length = min k LONG_TERM_WINDOW ∧
  (rd.was_above = none ↔ k < LONG_TERM_WINDOW) ∧
  (k = 0 → rd.state = "MAINTAIN_NEUTRAL") ∧
  (1 ≤ k → k ≤ LONG_TERM_WINDOW → rd.state = "PRIMING") ∧
  (LONG_TERM_WINDOW < k → stateFour rd.state)

/-- Invariant tying each bounded window to the suffix of the score
sequence it should hold after FIFO eviction. -/
def WindowInv (ss : List ℚ) (rd : RegionState) : Prop :=
  rd.short_term_scores = ss.drop (ss.length - SHORT_TERM_WINDOW) ∧
  rd.long_term_scores = ss.drop (ss.length - LONG_TERM_WINDOW) ∧
  rd.history.length ≤ GRAPH_HISTORY_LENGTH

/-- A region whose long window is already full and whose crossover
baseline is established: the configuration reached after at least
LONG_TERM_WINDOW + 1 calls (used as a concrete test state). -/
def primedRegion : RegionState :=
  { initRegion with
    long_term_scores := List.replicate LONG_TERM_WINDOW 0
    was_above := some false }

/-! Heap-aware model of the whole HappinessTracker object.  Python's
dict.copy() in get_region_snapshot duplicates the region dict's slots but
not the list objects those slots point to, so object identity of the
three lists is observable.  The model gives each list an address in an
explicit heap; a region dict stores the three addresses plus the scalar
fields, and get_region_snapshot copies that record (scalars and
addresses), exactly as dict.copy() does. -/

/-- Lookup in an association list (a Python dict keyed in insertion
order). -/
def assocGet {α β : Type} [DecidableEq α] : List (α × β) → α → Option β
  | [], _ => none
  | (k0, v) :: t, k => if k0 = k then some v else assocGet t k

/-- Update or insert in an association list: an existing key is updated in
place, a new key is appended at the end, matching Python dict insertion
order. -/
def assocSet {α β : Type} [DecidableEq α] : List (α × β) → α → β → List (α × β)
  | [], k, v => [(k, v)]
  | (k0, v0) :: t, k, v => if k0 = k then (k0, v) :: t else (k0, v0) :: assocSet t k v

/-- Apply a function to the value at an existing key of an association
list. -/
def assocModify {α β : Type} [DecidableEq α] : List (α × β) → α → (β → β) → List (α × β)
  | [], _, _ => []
  | (k0, v0) :: t, k, f => if k0 = k then (k0, f v0) :: t else (k0, v0) :: assocModify t k f

/-- Read a list object from the heap (addresses created by the tracker
always exist; absent addresses default to the empty list). -/
def heapGet (h : List (Nat × List ℚ)) (r : Nat) : List ℚ :=
  (assocGet h r).getD []

/-- One region's dict as stored in HappinessTracker.regions: the three
list-valued slots hold heap addresses, the scalar slots hold values.
dict.copy() copies exactly this record. -/
structure RegionDict where
  short_ref : Nat
  long_ref : Nat
  hist_ref : Nat
  short_term_avg : ℚ
  long_term_avg : ℚ
  was_above : Option Bool
  state : String
deriving Repr, DecidableEq

/-- The HappinessTracker object: the heap of list objects, an allocation
counter, and the regions dict. -/
structure Tracker where
  heap : List (Nat × List ℚ)
  next_ref : Nat
  regions : List (String × RegionDict)
deriving Repr, DecidableEq

/-- A freshly initialised region dict, with three fresh list addresses. -/
def initRegionDict (n : Nat) : RegionDict :=
  { short_ref := n
    long_ref := n + 1
    hist_ref := n + 2
    short_term_avg := 0
    long_term_avg := 0
    was_above := none
    state := "MAINTAIN_NEUTRAL" }

/-- The tracker as built by HappinessTracker.__init__. -/
def emptyTracker : Tracker :=
  { heap := [], next_ref := 0, regions := [] }

/-- HappinessTracker get_or_create_region: returns the region's dict,
allocating a fresh one with three fresh empty lists if the region is
unseen. -/
def get_or_create_region (t : Tracker) (r : String) : RegionDict × Tracker :=
  match assocGet t.regions r with
  | some d => (d, t)
  | none =>
    let d := initRegionDict t.next_ref
    (d, { heap := assocSet (assocSet (assocSet t.heap d.short_ref []) d.long_ref []) d.hist_ref []
          next_ref := t.next_ref + 3
          regions := assocSet t.regions r d })

/-- HappinessTracker.get_region_snapshot: get_or_create_region followed by
dict.copy().  The copy is shallow: the returned record duplicates the
scalar slots and the three list addresses, not the list objects. -/
def get_region_snapshot (t : Tracker) (r : String) : RegionDict × Tracker :=
  get_or_create_region t r

/-- The observable value of a region dict under a given heap: every list
slot dereferenced. -/
def viewDict (h : List (Nat × List ℚ)) (d : RegionDict) : RegionState :=
  { short_term_scores := heapGet h d.short_ref
    long_term_scores := heapGet h d.long_ref
    short_term_avg := d.short_term_avg
    long_term_avg := d.long_term_avg
    was_above := d.was_above
    state := d.state
    history := heapGet h d.hist_ref }

/-- HappinessTracker.add_sentiment_score on the tracker object: fetch (or
create) the region dict, run the per-region update on its observable
value, then write the three lists back in place (same addresses: Python
mutates the list objects) and assign the recomputed scalar slots into the
regions dict entry. -/
def tracker_add (t : Tracker) (r : String) (s : ℚ) : Tracker :=
  match get_or_create_region t r with
  | (d, t1) =>
    let rd' := add_sentiment_score (viewDict t1.heap d) s
    { t1 with
      heap := assocSet (assocSet (assocSet t1.heap d.short_ref rd'.short_term_scores)
                d.long_ref rd'.long_term_scores) d.hist_ref rd'.history
      regions := assocSet t1.regions r
        { d with
          short_term_avg := rd'.short_term_avg
          long_term_avg := rd'.long_term_avg
          was_above := rd'.was_above
          state := rd'.state } }

/-- Feeding a sequence of scores to one region of the tracker object. -/
def tracker_addAll (t : Tracker) (r : String) (ss : List ℚ) : Tracker :=
  ss.foldl (fun tt s => tracker_add tt r s) t

/-! Model of main()'s aggregation cycle (LOOP 1 and LOOP 2 of
agent_listener.py).  The external classifier is an oracle parameter
mapping a text to an optional analysis result. -/

/-- The classifier response, as far as the aggregation logic reads it: the
sentiment label if present (analysis.get reads it with default
"neutral"). -/
structure Analysis where
  sentiment : Option String
deriving Repr, DecidableEq

/-- One event of the fetched batch, with the fields LOOP 1 reads.  Absent
keys are none. -/
structure Event where
  region : Option String
  event_type : String
  text : Option String
  log : Option String
deriving Repr, DecidableEq

/-- Python truthiness of an optional string: None and the empty string are
falsy. -/
def strTruthy : Option String → Bool
  | none => false
  | some s => decide (s ≠ "")

/-- Python's a or b on optional strings: the first operand if truthy, the
second otherwise. -/
def pyOr (a b : Option String) : Option String :=
  if strTruthy a then a else b

/-- The region LOOP 1 uses for an event: event.get of the region key,
skipped when falsy. -/
def regionOf (e : Event) : Option String :=
  if strTruthy e.region then e.region else none

/-- The text LOOP 1 analyses: event.get text or event.get log, skipped
when falsy. -/
def effText (e : Event) : Option String :=
  if strTruthy (pyOr e.text e.log) then pyOr e.text e.log else none

/-- analysis.get of the sentiment key with default neutral. -/
def sentimentOf (a : Analysis) : String :=
  a.sentiment.getD "neutral"

/-- score_map.get of the sentiment label with default 0. -/
def score_map (sentiment : String) : ℚ :=
  if sentiment = "positive" then 1
  else if sentiment = "negative" then -1
  else if sentiment = "neutral" then 0
  else 0

/-- The two per-region buckets LOOP 1 builds in grouped_data. -/
structure Buckets where
  network_metrics : List Event
  analyzed_posts : List (Event × Analysis)
deriving Repr, DecidableEq

/-- The empty bucket pair created when a region is first seen in the
batch. -/
def emptyBuckets : Buckets :=
  { network_metrics := [], analyzed_posts := [] }

/-- Processing of one event in LOOP 1: skip events with falsy region,
create the region's buckets, then dispatch on event_type; text events go
through the classifier, and on success the score is fed to the tracker
call list and the annotated event is appended to analyzed_posts. -/
def loop1Step (analyze : String → Option Analysis)
    (st : List (String × Buckets) × List (String × ℚ)) (e : Event) :
    List (String × Buckets) × List (String × ℚ) :=
  match regionOf e with
  | none => st
  | some r =>
    let g0 := if (assocGet st.fst r).isSome then st.fst else assocSet st.fst r emptyBuckets
    if e.event_type = "network_metric" then
      (assocModify g0 r (fun b => { b with network_metrics := b.network_metrics ++ [e] }), st.snd)
    else if e.event_type = "social_media_post" ∨ e.event_type = "support_interaction" then
      match effText e with
      | none => (g0, st.snd)
      | some txt =>
        match analyze txt with
        | none => (g0, st.snd)
        | some a =>
          (assocModify g0 r (fun b => { b with analyzed_posts := b.analyzed_posts ++ [(e, a)] }),
           st.snd ++ [(r, score_map (sentimentOf a))])
    else
      (g0, st.snd)

/-- LOOP 1 over a whole batch: the grouped per-region buckets, and the
sequence of tracker add_sentiment_score calls it performs, in order. -/
def loop1 (analyze : String → Option Analysis) (events : List Event) :
    List (String × Buckets) × List (String × ℚ) :=
  events.foldl (loop1Step analyze) ([], [])

/-- The guard of LOOP 2: a grouped region is processed unless it is the
global sentinel or both of its buckets are empty. -/
def keepRegion (p : String × Buckets) : Bool :=
  !(decide (p.fst = "global")
    || (p.snd.network_metrics.isEmpty && p.snd.analyzed_posts.isEmpty))

/-- LOOP 2's per-region output: the regions (with their buckets) for which
a decision cycle runs and a report is produced. -/
def loop2Output (grouped : List (String × Buckets)) : List (String × Buckets) :=
  grouped.filter keepRegion

/-- The region keys of LOOP 2's output. -/
def outputRegions (grouped : List (String × Buckets)) : List String :=
  (loop2Output grouped).map Prod.fst

/-! Model of the bounded report store of reporter_with_storage.py. -/

/-- Capacity MAX_HISTORY = 200 of the report deque. -/
def MAX_HISTORY : Nat := 200

/-- One stored report: the server-assigned timestamp and the parsed
payload (opaque to the store). -/
structure Report where
  received_at : String
  data : String
deriving Repr, DecidableEq

/-- Append on a deque with maxlen MAX_HISTORY: at capacity the oldest
element is discarded from the left, then the new one is appended. -/
def dequeAppend (xs : List Report) (x : Report) : List Report :=
  if xs.length = MAX_HISTORY then xs.tail ++ [x] else xs ++ [x]

/-- MyReportHandler.do_POST: when the body parses (parsed = some payload)
the payload is wrapped with the server timestamp and appended, and status
200 is returned; when parsing raises (parsed = none) the store is
untouched and status 500 is returned. -/
def do_POST (store : List Report) (now : String) (parsed : Option String) :
    List Report × Nat :=
  match parsed with
  | none => (store, 500)
  | some p => (dequeAppend store { received_at := now, data := p }, 200)

/-- Wrapping of one well-formed request (timestamp, payload) into the
stored report. -/
def wrapReport (r : String × String) : Report :=
  { received_at := r.fst, data := r.snd }

/-- A sequence of well-formed ingestions. -/
def ingestAll (store : List Report) (rs : List (String × String)) : List Report :=
  rs.foldl (fun st r => (do_POST st r.fst (some r.snd)).fst) store

example : (applyScores initRegion [1, 1, 1]).state = "PRIMING" := by decide

example : (applyScores initRegion [1, 1, 1]).short_term_scores = [1, 1, 1] := by decide

/-! Basic facts about pushWindow. -/

theorem pushWindow_length (cap : Nat) (xs : List ℚ) (x : ℚ) (h : xs.length ≤ cap) :
    (pushWindow cap xs x).length = min (xs.length + 1) cap := by
  unfold pushWindow
  simp only [List.length_append, List.length_singleton]
  split
  · simp [List.length_tail]
    omega
  · simp
    omega

theorem pushWindow_length_le (cap : Nat) (xs : List ℚ) (x : ℚ)
    (h : xs.length ≤ cap) : (pushWindow cap xs x).length ≤ cap := by
  rw [pushWindow_length cap xs x h]
  omega

theorem pushWindow_ne_nil (cap : Nat) (xs : List ℚ) (x : ℚ) (hcap : 1 ≤ cap) :
    pushWindow cap xs x ≠ [] := by
  unfold pushWindow
  split
  · rename_i hlen
    simp only [List.length_append, List.length_singleton] at hlen
    intro hnil
    have h3 := congrArg List.length hnil
    rw [List.length_tail] at h3
    simp only [List.length_append, List.length_singleton, List.length_nil] at h3
    omega
  · simp

theorem pushWindow_getLast? (cap : Nat) (xs : List ℚ) (x : ℚ) (hcap : 1 ≤ cap) :
    (pushWindow cap xs x).getLast? = some x := by
  unfold pushWindow
  split
  · rename_i hlen
    simp only [List.length_append, List.length_singleton] at hlen
    cases xs with
    | nil => simp at hlen; omega
    | cons y ys => simp [List.getLast?_concat]
  · simp [List.getLast?_concat]

theorem pushWindow_drop (cap : Nat) (hcap : 1 ≤ cap) (l : List ℚ) (x : ℚ) :
    pushWindow cap (l.drop (l.length - cap)) x = (l ++ [x]).drop (l.length + 1 - cap) := by
  unfold pushWindow
  rcases Nat.lt_or_ge l.length cap with hlt | hge
  · have h0 : l.length - cap = 0 := by omega
    have h1 : l.length + 1 - cap = 0 := by omega
    simp only [h0, h1, List.drop_zero, List.length_append, List.length_singleton]
    split
    · omega
    · rfl
  · have hdlen : (l.drop (l.length - cap)).length = cap := by
      rw [List.length_drop]
      omega
    simp only [List.length_append, List.length_singleton, hdlen]
    split
    · have hne : l.drop (l.length - cap) ≠ [] := by
        intro hnil
        rw [hnil] at hdlen
        simp only [List.length_nil] at hdlen
        omega
      rw [List.tail_append_singleton_of_ne_nil hne, List.tail_drop]
      rw [List.drop_append_of_le_length (by omega)]
      have hidx : l.length - cap + 1 = l.length + 1 - cap := by omega
      rw [hidx]
    · omega

/-! Field-preservation facts about update_state and add_sentiment_score. -/

theorem update_state_short (rd : RegionState) :
    (update_state rd).short_term_scores = rd.short_term_scores := by
  unfold update_state
  split
  · rfl
  · rcases hwa : rd.was_above with _ | wa <;> simp [hwa]

theorem update_state_long (rd : RegionState) :
    (update_state rd).long_term_scores = rd.long_term_scores := by
  unfold update_state
  split
  · rfl
  · rcases hwa : rd.was_above with _ | wa <;> simp [hwa]

theorem update_state_short_avg (rd : RegionState) :
    (update_state rd).short_term_avg = rd.short_term_avg := by
  unfold update_state
  split
  · rfl
  · rcases hwa : rd.was_above with _ | wa <;> simp [hwa]

theorem update_state_long_avg (rd : RegionState) :
    (update_state rd).long_term_avg = rd.long_term_avg := by
  unfold update_state
  split
  · rfl
  · rcases hwa : rd.was_above with _ | wa <;> simp [hwa]

theorem update_state_history (rd : RegionState) :
    (update_state rd).history = rd.history := by
  unfold update_state
  split
  · rfl
  · rcases hwa : rd.was_above with _ | wa <;> simp [hwa]

theorem pushAndAverage_short (rd : RegionState) (s : ℚ) :
    (pushAndAverage rd s).short_term_scores
      = pushWindow SHORT_TERM_WINDOW rd.short_term_scores s := rfl

theorem pushAndAverage_long (rd : RegionState) (s : ℚ) :
    (pushAndAverage rd s).long_term_scores
      = pushWindow LONG_TERM_WINDOW rd.long_term_scores s := rfl

theorem pushAndAverage_wa (rd : RegionState) (s : ℚ) :
    (pushAndAverage rd s).was_above = rd.was_above := rfl

theorem pushAndAverage_state (rd : RegionState) (s : ℚ) :
    (pushAndAverage rd s).state = rd.state := rfl

theorem pushAndAverage_history (rd : RegionState) (s : ℚ) :
    (pushAndAverage rd s).history = rd.history := rfl

theorem add_sentiment_score_short (rd : RegionState) (s : ℚ) :
    (add_sentiment_score rd s).short_term_scores
      = pushWindow SHORT_TERM_WINDOW rd.short_term_scores s := by
  simp only [add_sentiment_score, update_state_short, pushAndAverage_short]

theorem add_sentiment_score_long (rd : RegionState) (s : ℚ) :
    (add_sentiment_score rd s).long_term_scores
      = pushWindow LONG_TERM_WINDOW rd.long_term_scores s := by
  simp only [add_sentiment_score, update_state_long, pushAndAverage_long]

theorem add_sentiment_score_history (rd : RegionState) (s : ℚ) :
    (add_sentiment_score rd s).history
      = pushWindow GRAPH_HISTORY_LENGTH rd.history (add_sentiment_score rd s).short_term_avg := by
  simp only [add_sentiment_score, update_state_history, update_state_short_avg,
    pushAndAverage_history]

theorem add_sentiment_score_wa (rd : RegionState) (s : ℚ) :
    (add_sentiment_score rd s).was_above = (update_state (pushAndAverage rd s)).was_above := rfl

theorem add_sentiment_score_state (rd : RegionState) (s : ℚ) :
    (add_sentiment_score rd s).state = (update_state (pushAndAverage rd s)).state := rfl

theorem add_sentiment_score_short_avg (rd : RegionState) (s : ℚ) :
    (add_sentiment_score rd s).short_term_avg = (pushAndAverage rd s).short_term_avg := by
  simp only [add_sentiment_score, update_state_short_avg]

theorem add_sentiment_score_long_avg (rd : RegionState) (s : ℚ) :
    (add_sentiment_score rd s).long_term_avg = (pushAndAverage rd s).long_term_avg := by
  simp only [add_sentiment_score, update_state_long_avg]

/-! Behaviour of update_state in its three regimes. -/

theorem update_state_priming (rd : RegionState)
    (h : rd.long_term_scores.length < LONG_TERM_WINDOW) :
    (update_state rd).state = "PRIMING" ∧ (update_state rd).was_above = rd.was_above := by
  unfold update_state
  rw [if_pos h]
  exact ⟨rfl, rfl⟩

theorem update_state_baseline (rd : RegionState)
    (h : ¬ rd.long_term_scores.length < LONG_TERM_WINDOW) (hwa : rd.was_above = none) :
    (update_state rd).state = rd.state ∧
    (update_state rd).was_above
      = some (decide (rd.long_term_avg < rd.short_term_avg)) := by
  unfold update_state
  rw [if_neg h]
  simp [hwa]

theorem update_state_cross (rd : RegionState) (b : Bool)
    (h : ¬ rd.long_term_scores.length < LONG_TERM_WINDOW) (hwa : rd.was_above = some b) :
    (update_state rd).was_above
      = some (decide (rd.long_term_avg < rd.short_term_avg)) ∧
    (update_state rd).state
      = (if decide (rd.long_term_avg < rd.short_term_avg) && !b then "TRENDING_UP"
         else if !(decide (rd.long_term_avg < rd.short_term_avg)) && b then "TRENDING_DOWN"
         else if decide (rd.long_term_avg < rd.short_term_avg) then "MAINTAIN_GOOD"
         else "MAINTAIN_POOR") := by
  unfold update_state
  rw [if_neg h]
  simp [hwa]

theorem trackInv_init : TrackInv 0 initRegion := by
  refine ⟨?_, ?_, ?_, ?_, ?_⟩ <;> simp [initRegion, LONG_TERM_WINDOW]

theorem trackInv_step (k : Nat) (rd : RegionState) (s : ℚ) (h : TrackInv k rd) :
    TrackInv (k + 1) (add_sentiment_score rd s) := by
  obtain ⟨hlen, hwa, h0, hp, hf⟩ := h
  have hL : LONG_TERM_WINDOW = 100 := rfl
  have hle : rd.long_term_scores.length ≤ LONG_TERM_WINDOW := by omega
  have hlen' : (add_sentiment_score rd s).long_term_scores.length = min (k + 1) LONG_TERM_WINDOW := by
    rw [add_sentiment_score_long, pushWindow_length _ _ _ hle, hlen]
    omega
  have hmidlen : (pushAndAverage rd s).long_term_scores.length = min (k + 1) LONG_TERM_WINDOW := by
    rw [pushAndAverage_long, pushWindow_length _ _ _ hle, hlen]
    omega
  rcases Nat.lt_or_ge (k + 1) LONG_TERM_WINDOW with hk | hk
  · -- still priming after this call
    have hmid : (pushAndAverage rd s).long_term_scores.length < LONG_TERM_WINDOW := by omega
    obtain ⟨hst, hwa'⟩ := update_state_priming (pushAndAverage rd s) hmid
    refine ⟨hlen', ?_, ?_, ?_, ?_⟩
    · rw [add_sentiment_score_wa, hwa', pushAndAverage_wa]
      constructor
      · intro _; omega
      · intro _; exact hwa.mpr (by omega)
    · omega
    · intro _ _
      rw [add_sentiment_score_state, hst]
    · omega
  · -- the long window is exactly full from this call on
    have hmid : ¬ (pushAndAverage rd s).long_term_scores.length < LONG_TERM_WINDOW := by omega
    rcases hwab : rd.was_above with _ | b
    · -- first full-window call: baseline established, state untouched
      have hwamid : (pushAndAverage rd s).was_above = none := by
        rw [pushAndAverage_wa, hwab]
      obtain ⟨hst, hwa'⟩ := update_state_baseline (pushAndAverage rd s) hmid hwamid
      have hk99 : k < LONG_TERM_WINDOW := hwa.mp hwab
      refine ⟨hlen', ?_, ?_, ?_, ?_⟩
      · rw [add_sentiment_score_wa, hwa']
        simp
        omega
      · intro h; exfalso; omega
      · intro _ hk100
        rw [add_sentiment_score_state, hst, pushAndAverage_state]
        exact hp (by omega) (by omega)
      · intro h; exfalso; omega
    · -- crossover regime: one of the four labels is assigned
      have hwamid : (pushAndAverage rd s).was_above = some b := by
        rw [pushAndAverage_wa, hwab]
      obtain ⟨hwa', hst⟩ := update_state_cross (pushAndAverage rd s) b hmid hwamid
      have hk100 : ¬ k < LONG_TERM_WINDOW := by
        intro hlt
        rw [hwa.mpr hlt] at hwab
        exact Option.noConfusion hwab
      refine ⟨hlen', ?_, ?_, ?_, ?_⟩
      · rw [add_sentiment_score_wa, hwa']
        simp
        omega
      · intro h; exfalso; omega
      · intro _ h100
        exfalso
        omega
      · intro _
        rw [add_sentiment_score_state, hst]
        unfold stateFour
        split
        · exact Or.inl rfl
        · split
          · exact Or.inr (Or.inl rfl)
          · split
            · exact Or.inr (Or.inr (Or.inl rfl))
            · exact Or.inr (Or.inr (Or.inr rfl))

theorem trackInv_applyScores (ss : List ℚ) :
    ∀ (k : Nat) (rd : RegionState), TrackInv k rd → TrackInv (k + ss.length) (applyScores rd ss) := by
  induction ss with
  | nil => intro k rd h; simpa [applyScores] using h
  | cons s tl ih =>
    intro k rd h
    have h1 := trackInv_step k rd s h
    have h2 := ih (k + 1) (add_sentiment_score rd s) h1
    simp only [applyScores, List.foldl_cons] at h2 ⊢
    simpa [Nat.add_comm, Nat.add_assoc, Nat.add_left_comm] using h2

theorem trackInv_run (ss : List ℚ) : TrackInv ss.length (applyScores initRegion ss) := by
  simpa using trackInv_applyScores ss 0 initRegion trackInv_init

theorem applyScores_append (rd : RegionState) (ss ts : List ℚ) :
    applyScores rd (ss ++ ts) = applyScores (applyScores rd ss) ts := by
  simp [applyScores, List.foldl_append]

theorem windowInv_run (ss : List ℚ) : WindowInv ss (applyScores initRegion ss) := by
  induction ss using List.reverseRecOn with
  | nil =>
    refine ⟨?_, ?_, ?_⟩ <;> simp [applyScores, initRegion]
  | append_singleton ts s ih =>
    obtain ⟨hshort, hlong, hhist⟩ := ih
    rw [applyScores_append]
    have hlen : (ts ++ [s]).length = ts.length + 1 := by simp
    refine ⟨?_, ?_, ?_⟩
    · rw [applyScores, List.foldl_cons, List.foldl_nil, add_sentiment_score_short, hshort,
        hlen, pushWindow_drop SHORT_TERM_WINDOW (by decide) ts s]
    · rw [applyScores, List.foldl_cons, List.foldl_nil, add_sentiment_score_long, hlong,
        hlen, pushWindow_drop LONG_TERM_WINDOW (by decide) ts s]
    · rw [applyScores, List.foldl_cons, List.foldl_nil, add_sentiment_score_history]
      exact pushWindow_length_le _ _ _ hhist

/-! Facts about the bounded report store. -/

theorem dequeAppend_getLast? (xs : List Report) (x : Report) :
    (dequeAppend xs x).getLast? = some x := by
  unfold dequeAppend
  split <;> simp [List.getLast?_concat]

theorem dequeAppend_length (xs : List Report) (x : Report) (h : xs.length ≤ MAX_HISTORY) :
    (dequeAppend xs x).length = min (xs.length + 1) MAX_HISTORY := by
  have hM : MAX_HISTORY = 200 := rfl
  unfold dequeAppend
  split
  · rename_i heq
    simp only [List.length_append, List.length_singleton, List.length_tail]
    omega
  · rename_i hne
    simp only [List.length_append, List.length_singleton]
    omega

theorem dequeAppend_drop (l : List Report) (x : Report) :
    dequeAppend (l.drop (l.length - MAX_HISTORY)) x
      = (l ++ [x]).drop (l.length + 1 - MAX_HISTORY) := by
  have hM : MAX_HISTORY = 200 := rfl
  unfold dequeAppend
  have hdlen : (l.drop (l.length - MAX_HISTORY)).length = min l.length MAX_HISTORY := by
    rw [List.length_drop]
    omega
  rcases Nat.lt_or_ge l.length MAX_HISTORY with hlt | hge
  · have h0 : l.length - MAX_HISTORY = 0 := by omega
    have h1 : l.length + 1 - MAX_HISTORY = 0 := by omega
    rw [h0, h1, List.drop_zero, List.drop_zero]
    rw [if_neg (by omega)]
  · rw [if_pos (by omega)]
    rw [List.tail_drop]
    rw [List.drop_append_of_le_length (by omega)]
    have hidx : l.length - MAX_HISTORY + 1 = l.length + 1 - MAX_HISTORY := by omega
    rw [hidx]

theorem ingestAll_cons (store : List Report) (r : String × String) (rs : List (String × String)) :
    ingestAll store (r :: rs) = ingestAll (dequeAppend store (wrapReport r)) rs := by
  simp only [ingestAll, List.foldl_cons, do_POST, wrapReport]

theorem ingestAll_drop (rs : List (String × String)) :
    ∀ l : List Report,
      ingestAll (l.drop (l.length - MAX_HISTORY)) rs
        = (l ++ rs.map wrapReport).drop (l.length + rs.length - MAX_HISTORY) := by
  induction rs with
  | nil => intro l; simp [ingestAll]
  | cons r tl ih =>
    intro l
    rw [ingestAll_cons, dequeAppend_drop]
    have h1 : l.length + 1 = (l ++ [wrapReport r]).length := by simp
    rw [h1, ih (l ++ [wrapReport r])]
    have h2 : (l ++ [wrapReport r]).length + tl.length - MAX_HISTORY
        = l.length + (r :: tl).length - MAX_HISTORY := by
      simp only [List.length_append, List.length_singleton, List.length_cons, List.length_nil]
      omega
    rw [h2]
    simp [List.append_assoc]

/-- C3: after MAX_HISTORY + k well-formed ingestions the store holds
exactly the most recent MAX_HISTORY reports in insertion order; each
single ingest appends the new report at the tail, growing by one below
capacity and staying at constant size (evicting the oldest) at
capacity. -/
theorem claim_C3_ring_buffer (rs : List (String × String)) (k : Nat)
    (h : rs.length = MAX_HISTORY + k) :
    (ingestAll [] rs).length = MAX_HISTORY ∧
    ingestAll [] rs = (rs.map wrapReport).drop k ∧
    (∀ (store : List Report) (x : Report), store.length ≤ MAX_HISTORY →
       (dequeAppend store x).length = min (store.length + 1) MAX_HISTORY ∧
       (dequeAppend store x).getLast? = some x) := by
  have hrun := ingestAll_drop rs []
  simp only [List.length_nil, Nat.zero_sub, List.drop_zero, List.nil_append, Nat.zero_add]
    at hrun
  have hdrop : rs.length - MAX_HISTORY = k := by omega
  rw [hdrop] at hrun
  refine ⟨?_, hrun, ?_⟩
  · rw [hrun, List.length_drop, List.length_map]
    omega
  · intro store x hle
    exact ⟨dequeAppend_length store x hle, dequeAppend_getLast? store x⟩

/-- Witness for C3 at a concrete run of MAX_HISTORY + 1 ingestions. -/
theorem claim_C3_ring_buffer_witness :
    (List.replicate (MAX_HISTORY + 1) ("t0", "p0")).length = MAX_HISTORY + 1 ∧
    ((ingestAll [] (List.replicate (MAX_HISTORY + 1) ("t0", "p0"))).length = MAX_HISTORY ∧
     ingestAll [] (List.replicate (MAX_HISTORY + 1) ("t0", "p0"))
       = ((List.replicate (MAX_HISTORY + 1) ("t0", "p0")).map wrapReport).drop 1 ∧
     (∀ (store : List Report) (x : Report), store.length ≤ MAX_HISTORY →
        (dequeAppend store x).length = min (store.length + 1) MAX_HISTORY ∧
        (dequeAppend store x).getLast? = some x)) :=
  ⟨by simp, claim_C3_ring_buffer (List.replicate (MAX_HISTORY + 1) ("t0", "p0")) 1 (by simp)⟩

/-- C7: a parseable ingestion returns status 200 and appends exactly the
timestamp-wrapped payload at the tail; an unparseable one returns status
500 and leaves the store unchanged. -/
theorem claim_C7_ingest_atomic (store : List Report) (now : String) (parsed : Option String)
    (hlen : store.length ≤ MAX_HISTORY) :
    (∀ p, parsed = some p →
       (do_POST store now parsed).snd = 200 ∧
       (do_POST store now parsed).fst = dequeAppend store { received_at := now, data := p } ∧
       (do_POST store now parsed).fst.getLast? = some { received_at := now, data := p } ∧
       (do_POST store now parsed).fst.length = min (store.length + 1) MAX_HISTORY) ∧
    (parsed = none →
       (do_POST store now parsed).snd = 500 ∧ (do_POST store now parsed).fst = store) := by
  constructor
  · intro p hp
    subst hp
    refine ⟨rfl, rfl, ?_, ?_⟩
    · exact dequeAppend_getLast? store _
    · exact dequeAppend_length store _ hlen
  · intro hp
    subst hp
    exact ⟨rfl, rfl⟩

/-- Witness for C7 covering both the parseable and the unparseable
branch on an empty store. -/
theorem claim_C7_ingest_atomic_witness :
    (([] : List Report).length ≤ MAX_HISTORY) ∧
    ((do_POST [] "t0" (some "p0")).snd = 200 ∧
     (do_POST [] "t0" (some "p0")).fst = dequeAppend [] { received_at := "t0", data := "p0" } ∧
     (do_POST [] "t0" (some "p0")).fst.getLast? = some { received_at := "t0", data := "p0" } ∧
     (do_POST [] "t0" (some "p0")).fst.length = min (0 + 1) MAX_HISTORY) ∧
    ((do_POST [] "t0" none).snd = 500 ∧ (do_POST [] "t0" none).fst = []) :=
  ⟨by decide,
   (claim_C7_ingest_atomic [] "t0" (some "p0") (by decide)).1 "p0" rfl,
   (claim_C7_ingest_atomic [] "t0" none (by decide)).2 rfl⟩

/-! Claim C8: window bounds and FIFO content. -/

/-- C8: after any sequence of scores to one region, every bounded list
respects its capacity, and the two score windows hold exactly the most
recent scores (FIFO eviction of the oldest). -/
theorem claim_C8_window_bounds (ss : List ℚ) :
    (applyScores initRegion ss).short_term_scores.length ≤ SHORT_TERM_WINDOW ∧
    (applyScores initRegion ss).long_term_scores.length ≤ LONG_TERM_WINDOW ∧
    (applyScores initRegion ss).history.length ≤ GRAPH_HISTORY_LENGTH ∧
    (applyScores initRegion ss).short_term_scores = ss.drop (ss.length - SHORT_TERM_WINDOW) ∧
    (applyScores initRegion ss).long_term_scores = ss.drop (ss.length - LONG_TERM_WINDOW) := by
  obtain ⟨h1, h2, h3⟩ := windowInv_run ss
  refine ⟨?_, ?_, h3, h1, h2⟩
  · rw [h1, List.length_drop]
    omega
  · rw [h2, List.length_drop]
    omega

/-! Claim C2: the PRIMING characterisation.  The claim as stated fails:
on the call that fills the long window, update_state takes the
baseline-establishing branch and returns without touching state, so state
is still PRIMING with a full window; a fresh region also starts in
MAINTAIN_NEUTRAL, not PRIMING. -/

/-- C2 counterexample: after exactly LONG_TERM_WINDOW scores the long
window is full, yet the state is still PRIMING, so state = PRIMING does
not hold iff the long window is short of full. -/
theorem claim_C2_counterexample :
    ¬ ((applyScores initRegion (List.replicate LONG_TERM_WINDOW (0 : ℚ))).state = "PRIMING"
       ↔ (applyScores initRegion (List.replicate LONG_TERM_WINDOW (0 : ℚ))).long_term_scores.length
           < LONG_TERM_WINDOW) := by
  have h := trackInv_run (List.replicate LONG_TERM_WINDOW (0 : ℚ))
  rw [List.length_replicate] at h
  obtain ⟨hlen, hwa, h0, hp, hf⟩ := h
  have hL : LONG_TERM_WINDOW = 100 := rfl
  intro hiff
  have hpr := hp (by omega) (by omega)
  have := hiff.mp hpr
  omega

/-- C2 (amended): for a fresh region the state is PRIMING after calls 1
through LONG_TERM_WINDOW inclusive (not only the first 99: the call that
fills the window leaves the PRIMING label in place) and never PRIMING
from call LONG_TERM_WINDOW + 1 onward; before the first call the state of
a lazily created region is MAINTAIN_NEUTRAL. -/
theorem claim_C2_amended (ss : List ℚ) :
    ((applyScores initRegion ss).state = "PRIMING"
       ↔ 1 ≤ ss.length ∧ ss.length ≤ LONG_TERM_WINDOW) ∧
    (ss = [] → (applyScores initRegion ss).state = "MAINTAIN_NEUTRAL") := by
  obtain ⟨hlen, hwa, h0, hp, hf⟩ := trackInv_run ss
  constructor
  · constructor
    · intro hst
      by_contra hk
      rcases Nat.eq_zero_or_pos ss.length with h00 | h01
      · rw [h0 h00] at hst
        exact absurd hst (by decide)
      · have hgt : LONG_TERM_WINDOW < ss.length := by omega
        rcases hf hgt with h | h | h | h <;> rw [h] at hst <;> exact absurd hst (by decide)
    · intro ⟨hk1, hk2⟩
      exact hp hk1 hk2
  · intro hnil
    subst hnil
    exact h0 rfl

/-- Witness for the one hypothesis-bearing conjunct of the amended C2, at
the empty score sequence. -/
theorem claim_C2_amended_witness :
    (applyScores initRegion ([] : List ℚ)).state = "MAINTAIN_NEUTRAL" :=
  (claim_C2_amended []).2 rfl

/-! Claim C10: no validation of scores; arbitrary numeric scores are
accepted and folded into both windows and both averages. -/

/-- Value of the short average after one call. -/
theorem pushAndAverage_short_avg (rd : RegionState) (s : ℚ) :
    (pushAndAverage rd s).short_term_avg
      = if (pushWindow SHORT_TERM_WINDOW rd.short_term_scores s).isEmpty then rd.short_term_avg
        else (pushWindow SHORT_TERM_WINDOW rd.short_term_scores s).sum
          / ((pushWindow SHORT_TERM_WINDOW rd.short_term_scores s).length : ℚ) := rfl

/-- Value of the long average after one call. -/
theorem pushAndAverage_long_avg (rd : RegionState) (s : ℚ) :
    (pushAndAverage rd s).long_term_avg
      = if (pushWindow LONG_TERM_WINDOW rd.long_term_scores s).isEmpty then rd.long_term_avg
        else (pushWindow LONG_TERM_WINDOW rd.long_term_scores s).sum
          / ((pushWindow LONG_TERM_WINDOW rd.long_term_scores s).length : ℚ) := rfl

/-- C10: add_sentiment_score accepts any rational score with no
validation: the raw score lands at the tail of both windows, both
averages are recomputed as the arithmetic means of the updated windows,
and the capacity bounds still hold. -/
theorem claim_C10_no_validation (rd : RegionState) (s : ℚ)
    (hs : rd.short_term_scores.length ≤ SHORT_TERM_WINDOW)
    (hl : rd.long_term_scores.length ≤ LONG_TERM_WINDOW)
    (hh : rd.history.length ≤ GRAPH_HISTORY_LENGTH) :
    (add_sentiment_score rd s).short_term_scores.getLast? = some s ∧
    (add_sentiment_score rd s).long_term_scores.getLast? = some s ∧
    (add_sentiment_score rd s).short_term_avg
      = (add_sentiment_score rd s).short_term_scores.sum
        / ((add_sentiment_score rd s).short_term_scores.length : ℚ) ∧
    (add_sentiment_score rd s).long_term_avg
      = (add_sentiment_score rd s).long_term_scores.sum
        / ((add_sentiment_score rd s).long_term_scores.length : ℚ) ∧
    (add_sentiment_score rd s).short_term_scores.length ≤ SHORT_TERM_WINDOW ∧
    (add_sentiment_score rd s).long_term_scores.length ≤ LONG_TERM_WINDOW ∧
    (add_sentiment_score rd s).history.length ≤ GRAPH_HISTORY_LENGTH := by
  have hsne := pushWindow_ne_nil SHORT_TERM_WINDOW rd.short_term_scores s (by decide)
  have hlne := pushWindow_ne_nil LONG_TERM_WINDOW rd.long_term_scores s (by decide)
  refine ⟨?_, ?_, ?_, ?_, ?_, ?_, ?_⟩
  · rw [add_sentiment_score_short]
    exact pushWindow_getLast? _ _ _ (by decide)
  · rw [add_sentiment_score_long]
    exact pushWindow_getLast? _ _ _ (by decide)
  · rw [add_sentiment_score_short_avg, add_sentiment_score_short, pushAndAverage_short_avg,
      if_neg (by simpa using hsne)]
  · rw [add_sentiment_score_long_avg, add_sentiment_score_long, pushAndAverage_long_avg,
      if_neg (by simpa using hlne)]
  · rw [add_sentiment_score_short]
    exact pushWindow_length_le _ _ _ hs
  · rw [add_sentiment_score_long]
    exact pushWindow_length_le _ _ _ hl
  · rw [add_sentiment_score_history]
    exact pushWindow_length_le _ _ _ hh

/-- Witness for C10 at a fresh region and the out-of-range score 5. -/
theorem claim_C10_no_validation_witness :
    (initRegion.short_term_scores.length ≤ SHORT_TERM_WINDOW ∧
     initRegion.long_term_scores.length ≤ LONG_TERM_WINDOW ∧
     initRegion.history.length ≤ GRAPH_HISTORY_LENGTH) ∧
    ((add_sentiment_score initRegion 5).short_term_scores.getLast? = some 5 ∧
     (add_sentiment_score initRegion 5).long_term_scores.getLast? = some 5 ∧
     (add_sentiment_score initRegion 5).short_term_avg
       = (add_sentiment_score initRegion 5).short_term_scores.sum
         / ((add_sentiment_score initRegion 5).short_term_scores.length : ℚ) ∧
     (add_sentiment_score initRegion 5).long_term_avg
       = (add_sentiment_score initRegion 5).long_term_scores.sum
         / ((add_sentiment_score initRegion 5).long_term_scores.length : ℚ) ∧
     (add_sentiment_score initRegion 5).short_term_scores.length ≤ SHORT_TERM_WINDOW ∧
     (add_sentiment_score initRegion 5).long_term_scores.length ≤ LONG_TERM_WINDOW ∧
     (add_sentiment_score initRegion 5).history.length ≤ GRAPH_HISTORY_LENGTH) :=
  ⟨⟨by decide, by decide, by decide⟩,
   claim_C10_no_validation initRegion 5 (by decide) (by decide) (by decide)⟩

/-! Claim C4: the crossover classification on a full long window. -/

/-- C4: once the long window is full after the call, a region with an
established was_above baseline is classified from the freshly recomputed
averages (TRENDING_UP on an upward crossover, TRENDING_DOWN on a downward
one, MAINTAIN_GOOD or MAINTAIN_POOR otherwise) and was_above is set to
the new relation; on the call that first sees the full window with
was_above unset, was_above is set from the new averages and the state is
left untouched. -/
theorem claim_C4_crossover (rd : RegionState) (s : ℚ) (b : Bool)
    (hlen1 : LONG_TERM_WINDOW ≤ rd.long_term_scores.length + 1)
    (hlen2 : rd.long_term_scores.length ≤ LONG_TERM_WINDOW) :
    (rd.was_above = some b →
       (add_sentiment_score rd s).was_above
         = some (decide ((add_sentiment_score rd s).long_term_avg
             < (add_sentiment_score rd s).short_term_avg)) ∧
       (add_sentiment_score rd s).state
         = (if decide ((add_sentiment_score rd s).long_term_avg
               < (add_sentiment_score rd s).short_term_avg) && !b then "TRENDING_UP"
            else if !(decide ((add_sentiment_score rd s).long_term_avg
               < (add_sentiment_score rd s).short_term_avg)) && b then "TRENDING_DOWN"
            else if decide ((add_sentiment_score rd s).long_term_avg
               < (add_sentiment_score rd s).short_term_avg) then "MAINTAIN_GOOD"
            else "MAINTAIN_POOR")) ∧
    (rd.was_above = none →
       (add_sentiment_score rd s).was_above
         = some (decide ((add_sentiment_score rd s).long_term_avg
             < (add_sentiment_score rd s).short_term_avg)) ∧
       (add_sentiment_score rd s).state = rd.state) := by
  have hmidlen : ¬ (pushAndAverage rd s).long_term_scores.length < LONG_TERM_WINDOW := by
    rw [pushAndAverage_long, pushWindow_length _ _ _ hlen2]
    omega
  constructor
  · intro hwab
    obtain ⟨hwa', hst⟩ := update_state_cross (pushAndAverage rd s) b hmidlen
      (by rw [pushAndAverage_wa]; exact hwab)
    constructor
    · rw [add_sentiment_score_wa, hwa', add_sentiment_score_short_avg,
        add_sentiment_score_long_avg]
    · rw [add_sentiment_score_state, hst, add_sentiment_score_short_avg,
        add_sentiment_score_long_avg]
  · intro hwab
    obtain ⟨hst, hwa'⟩ := update_state_baseline (pushAndAverage rd s) hmidlen
      (by rw [pushAndAverage_wa]; exact hwab)
    constructor
    · rw [add_sentiment_score_wa, hwa', add_sentiment_score_short_avg,
        add_sentiment_score_long_avg]
    · rw [add_sentiment_score_state, hst, pushAndAverage_state]

/-- Witness for C4 at a full-window region with was_above established
as false, fed the out-of-baseline score 1. -/
theorem claim_C4_crossover_witness :
    (LONG_TERM_WINDOW ≤ primedRegion.long_term_scores.length + 1 ∧
     primedRegion.long_term_scores.length ≤ LONG_TERM_WINDOW ∧
     primedRegion.was_above = some false) ∧
    ((add_sentiment_score primedRegion 1).was_above
       = some (decide ((add_sentiment_score primedRegion 1).long_term_avg
           < (add_sentiment_score primedRegion 1).short_term_avg)) ∧
     (add_sentiment_score primedRegion 1).state
       = (if decide ((add_sentiment_score primedRegion 1).long_term_avg
             < (add_sentiment_score primedRegion 1).short_term_avg) && !false then "TRENDING_UP"
          else if !(decide ((add_sentiment_score primedRegion 1).long_term_avg
             < (add_sentiment_score primedRegion 1).short_term_avg)) && false then "TRENDING_DOWN"
          else if decide ((add_sentiment_score primedRegion 1).long_term_avg
             < (add_sentiment_score primedRegion 1).short_term_avg) then "MAINTAIN_GOOD"
          else "MAINTAIN_POOR")) :=
  ⟨⟨by simp [primedRegion, initRegion], by simp [primedRegion, initRegion], rfl⟩,
   (claim_C4_crossover primedRegion 1 false
      (by simp [primedRegion, initRegion]) (by simp [primedRegion, initRegion])).1 rfl⟩

/-! Association-list and heap lemmas. -/

theorem assocGet_set_self {α β : Type} [DecidableEq α] (m : List (α × β)) (k : α) (v : β) :
    assocGet (assocSet m k v) k = some v := by
  induction m with
  | nil => simp [assocGet, assocSet]
  | cons p t ih =>
    cases p with
    | mk k0 v0 =>
      simp only [assocSet]
      split
      · rename_i h
        simp [assocGet, h]
      · rename_i h
        simp [assocGet, h, ih]

theorem assocGet_set_ne {α β : Type} [DecidableEq α] (m : List (α × β)) (k k' : α) (v : β)
    (hne : k ≠ k') : assocGet (assocSet m k v) k' = assocGet m k' := by
  induction m with
  | nil => simp [assocGet, assocSet, hne]
  | cons p t ih =>
    cases p with
    | mk k0 v0 =>
      simp only [assocSet]
      split
      · rename_i h
        subst h
        simp [assocGet, hne]
      · rename_i h
        simp only [assocGet]
        split
        · rfl
        · exact ih

theorem heapGet_set_self (h : List (Nat × List ℚ)) (k : Nat) (v : List ℚ) :
    heapGet (assocSet h k v) k = v := by
  simp [heapGet, assocGet_set_self]

theorem heapGet_set_ne (h : List (Nat × List ℚ)) (k k' : Nat) (v : List ℚ) (hne : k ≠ k') :
    heapGet (assocSet h k v) k' = heapGet h k' := by
  simp [heapGet, assocGet_set_ne h k k' v hne]

/-! Facts about region creation and snapshots on the tracker object. -/

theorem initRegionDict_refs (n : Nat) :
    (initRegionDict n).short_ref = n ∧ (initRegionDict n).long_ref = n + 1 ∧
    (initRegionDict n).hist_ref = n + 2 ∧ (initRegionDict n).short_term_avg = 0 ∧
    (initRegionDict n).long_term_avg = 0 ∧ (initRegionDict n).was_above = none ∧
    (initRegionDict n).state = "MAINTAIN_NEUTRAL" :=
  ⟨rfl, rfl, rfl, rfl, rfl, rfl, rfl⟩

theorem viewDict_fresh (h0 : List (Nat × List ℚ)) (n : Nat) :
    viewDict (assocSet (assocSet (assocSet h0 n []) (n + 1) []) (n + 2) [])
      (initRegionDict n) = initRegion := by
  unfold viewDict
  rw [(initRegionDict_refs n).1, (initRegionDict_refs n).2.1, (initRegionDict_refs n).2.2.1,
    (initRegionDict_refs n).2.2.2.1, (initRegionDict_refs n).2.2.2.2.1,
    (initRegionDict_refs n).2.2.2.2.2.1, (initRegionDict_refs n).2.2.2.2.2.2]
  rw [heapGet_set_ne _ _ _ _ (by omega), heapGet_set_ne _ _ _ _ (by omega), heapGet_set_self]
  rw [heapGet_set_ne _ _ _ _ (by omega), heapGet_set_self]
  rw [heapGet_set_self]
  rfl

theorem get_or_create_region_none (t : Tracker) (r : String)
    (h : assocGet t.regions r = none) :
    (get_or_create_region t r).fst = initRegionDict t.next_ref ∧
    assocGet (get_or_create_region t r).snd.regions r = some (initRegionDict t.next_ref) ∧
    viewDict (get_or_create_region t r).snd.heap (initRegionDict t.next_ref) = initRegion := by
  unfold get_or_create_region
  rw [h]
  exact ⟨rfl, assocGet_set_self t.regions r _, viewDict_fresh t.heap t.next_ref⟩

theorem get_region_snapshot_mem (t : Tracker) (r : String) :
    assocGet (get_region_snapshot t r).snd.regions r = some (get_region_snapshot t r).fst := by
  unfold get_region_snapshot get_or_create_region
  cases h : assocGet t.regions r with
  | some d => exact h
  | none => exact assocGet_set_self t.regions r _

theorem get_region_snapshot_found (t : Tracker) (r : String) (d : RegionDict)
    (hd : assocGet t.regions r = some d) :
    (get_region_snapshot t r).fst = d ∧ (get_region_snapshot t r).snd = t := by
  unfold get_region_snapshot get_or_create_region
  rw [hd]
  exact ⟨rfl, rfl⟩

theorem tracker_add_found (t : Tracker) (r : String) (s : ℚ) (d : RegionDict)
    (hd : assocGet t.regions r = some d) :
    (tracker_add t r s).heap
      = assocSet (assocSet (assocSet t.heap d.short_ref
          (add_sentiment_score (viewDict t.heap d) s).short_term_scores)
          d.long_ref (add_sentiment_score (viewDict t.heap d) s).long_term_scores)
          d.hist_ref (add_sentiment_score (viewDict t.heap d) s).history ∧
    (tracker_add t r s).regions
      = assocSet t.regions r
          { d with
            short_term_avg := (add_sentiment_score (viewDict t.heap d) s).short_term_avg
            long_term_avg := (add_sentiment_score (viewDict t.heap d) s).long_term_avg
            was_above := (add_sentiment_score (viewDict t.heap d) s).was_above
            state := (add_sentiment_score (viewDict t.heap d) s).state } := by
  unfold tracker_add get_or_create_region
  rw [hd]
  exact ⟨rfl, rfl⟩

/-- Adding a score to a region preserves the identity (heap addresses) of
that region's three list objects. -/
theorem tracker_add_same_refs (t : Tracker) (r : String) (s : ℚ) (d : RegionDict)
    (hd : assocGet t.regions r = some d) :
    ∃ d', assocGet (tracker_add t r s).regions r = some d' ∧
      d'.short_ref = d.short_ref ∧ d'.long_ref = d.long_ref ∧ d'.hist_ref = d.hist_ref := by
  obtain ⟨-, hreg⟩ := tracker_add_found t r s d hd
  refine ⟨{ d with
      short_term_avg := (add_sentiment_score (viewDict t.heap d) s).short_term_avg
      long_term_avg := (add_sentiment_score (viewDict t.heap d) s).long_term_avg
      was_above := (add_sentiment_score (viewDict t.heap d) s).was_above
      state := (add_sentiment_score (viewDict t.heap d) s).state }, ?_, rfl, rfl, rfl⟩
  rw [hreg]
  exact assocGet_set_self t.regions r _

theorem tracker_addAll_same_refs (r : String) (ss : List ℚ) :
    ∀ (t : Tracker) (d : RegionDict), assocGet t.regions r = some d →
      ∃ d', assocGet (tracker_addAll t r ss).regions r = some d' ∧
        d'.short_ref = d.short_ref ∧ d'.long_ref = d.long_ref ∧ d'.hist_ref = d.hist_ref := by
  induction ss with
  | nil =>
    intro t d hd
    exact ⟨d, hd, rfl, rfl, rfl⟩
  | cons s tl ih =>
    intro t d hd
    obtain ⟨d1, hd1, hs1, hl1, hh1⟩ := tracker_add_same_refs t r s d hd
    obtain ⟨d2, hd2, hs2, hl2, hh2⟩ := ih (tracker_add t r s) d1 hd1
    exact ⟨d2, hd2, by rw [hs2, hs1], by rw [hl2, hl1], by rw [hh2, hh1]⟩

/-! Claim C9: the sixth state value of a lazily created region. -/

/-- C9: a region lazily created by get_region_snapshot starts in state
MAINTAIN_NEUTRAL, a value outside the five-state enum, observable in the
snapshot before any score; the state becomes PRIMING only after the first
add_sentiment_score call. -/
theorem claim_C9_sixth_state (t : Tracker) (r : String) (s : ℚ)
    (h : assocGet t.regions r = none) :
    (get_region_snapshot t r).fst.state = "MAINTAIN_NEUTRAL" ∧
    "MAINTAIN_NEUTRAL"
      ∉ (["PRIMING", "TRENDING_UP", "TRENDING_DOWN", "MAINTAIN_GOOD", "MAINTAIN_POOR"] :
          List String) ∧
    (get_region_snapshot (tracker_add (get_region_snapshot t r).snd r s) r).fst.state
      = "PRIMING" := by
  obtain ⟨hfst, hmem, hview⟩ := get_or_create_region_none t r h
  have hfst' : (get_region_snapshot t r).fst = initRegionDict t.next_ref := hfst
  have hmem' : assocGet (get_region_snapshot t r).snd.regions r
      = some (initRegionDict t.next_ref) := hmem
  have hview' : viewDict (get_region_snapshot t r).snd.heap (initRegionDict t.next_ref)
      = initRegion := hview
  refine ⟨by rw [hfst']; rfl, by decide, ?_⟩
  obtain ⟨-, hreg⟩ := tracker_add_found (get_region_snapshot t r).snd r s
    (initRegionDict t.next_ref) hmem'
  have hstate : (add_sentiment_score
      (viewDict (get_region_snapshot t r).snd.heap (initRegionDict t.next_ref)) s).state
      = "PRIMING" := by
    rw [hview', add_sentiment_score_state]
    refine (update_state_priming _ ?_).1
    rw [pushAndAverage_long]
    simp [initRegion, pushWindow, LONG_TERM_WINDOW]
  have hlook : assocGet (tracker_add (get_region_snapshot t r).snd r s).regions r
      = some { initRegionDict t.next_ref with
          short_term_avg := (add_sentiment_score
            (viewDict (get_region_snapshot t r).snd.heap (initRegionDict t.next_ref)) s).short_term_avg
          long_term_avg := (add_sentiment_score
            (viewDict (get_region_snapshot t r).snd.heap (initRegionDict t.next_ref)) s).long_term_avg
          was_above := (add_sentiment_score
            (viewDict (get_region_snapshot t r).snd.heap (initRegionDict t.next_ref)) s).was_above
          state := (add_sentiment_score
            (viewDict (get_region_snapshot t r).snd.heap (initRegionDict t.next_ref)) s).state } := by
    rw [hreg]
    exact assocGet_set_self _ r _
  rw [(get_region_snapshot_found _ r _ hlook).1]
  exact hstate

/-- Witness for C9 on the empty tracker, region Dallas, score 1. -/
theorem claim_C9_sixth_state_witness :
    (assocGet emptyTracker.regions "Dallas" = none) ∧
    ((get_region_snapshot emptyTracker "Dallas").fst.state = "MAINTAIN_NEUTRAL" ∧
     "MAINTAIN_NEUTRAL"
       ∉ (["PRIMING", "TRENDING_UP", "TRENDING_DOWN", "MAINTAIN_GOOD", "MAINTAIN_POOR"] :
           List String) ∧
     (get_region_snapshot
        (tracker_add (get_region_snapshot emptyTracker "Dallas").snd "Dallas" 1)
        "Dallas").fst.state = "PRIMING") :=
  ⟨rfl, claim_C9_sixth_state emptyTracker "Dallas" 1 rfl⟩

/-! Claim C1: the snapshot is only a shallow copy. -/

/-- C1 counterexample: take the snapshot of a fresh region, then add one
score.  The snapshot's short_term_scores slot, dereferenced after the
call, now reads [1] instead of the empty list it held at snapshot time:
the snapshot is not independent of subsequent add_sentiment_score
calls. -/
theorem claim_C1_counterexample :
    (viewDict (get_region_snapshot emptyTracker "r").snd.heap
       (get_region_snapshot emptyTracker "r").fst).short_term_scores = [] ∧
    (viewDict (tracker_add (get_region_snapshot emptyTracker "r").snd "r" 1).heap
       (get_region_snapshot emptyTracker "r").fst).short_term_scores = [1] ∧
    viewDict (tracker_add (get_region_snapshot emptyTracker "r").snd "r" 1).heap
       (get_region_snapshot emptyTracker "r").fst
      ≠ viewDict (get_region_snapshot emptyTracker "r").snd.heap
         (get_region_snapshot emptyTracker "r").fst := by
  decide

/-- C1 (amended): get_region_snapshot returns a shallow dict copy.  The
copied scalar slots (both averages, was_above, state) are plain values
frozen at snapshot time, unaffected by any number of subsequent
add_sentiment_score calls; but the three sequence slots are shared list
objects, so dereferencing the snapshot after later calls yields exactly
the live region's current sequences, not the snapshot-time ones. -/
theorem claim_C1_shallow_copy (t : Tracker) (r : String) (ss : List ℚ) :
    ((viewDict (tracker_addAll (get_region_snapshot t r).snd r ss).heap
        (get_region_snapshot t r).fst).short_term_avg
       = (get_region_snapshot t r).fst.short_term_avg ∧
     (viewDict (tracker_addAll (get_region_snapshot t r).snd r ss).heap
        (get_region_snapshot t r).fst).long_term_avg
       = (get_region_snapshot t r).fst.long_term_avg ∧
     (viewDict (tracker_addAll (get_region_snapshot t r).snd r ss).heap
        (get_region_snapshot t r).fst).was_above
       = (get_region_snapshot t r).fst.was_above ∧
     (viewDict (tracker_addAll (get_region_snapshot t r).snd r ss).heap
        (get_region_snapshot t r).fst).state
       = (get_region_snapshot t r).fst.state) ∧
    ∃ d', assocGet (tracker_addAll (get_region_snapshot t r).snd r ss).regions r = some d' ∧
      (viewDict (tracker_addAll (get_region_snapshot t r).snd r ss).heap
         (get_region_snapshot t r).fst).short_term_scores
        = (viewDict (tracker_addAll (get_region_snapshot t r).snd r ss).heap d').short_term_scores ∧
      (viewDict (tracker_addAll (get_region_snapshot t r).snd r ss).heap
         (get_region_snapshot t r).fst).long_term_scores
        = (viewDict (tracker_addAll (get_region_snapshot t r).snd r ss).heap d').long_term_scores ∧
      (viewDict (tracker_addAll (get_region_snapshot t r).snd r ss).heap
         (get_region_snapshot t r).fst).history
        = (viewDict (tracker_addAll (get_region_snapshot t r).snd r ss).heap d').history := by
  refine ⟨⟨rfl, rfl, rfl, rfl⟩, ?_⟩
  obtain ⟨d', hd', hs, hl, hh⟩ := tracker_addAll_same_refs r ss (get_region_snapshot t r).snd
    (get_region_snapshot t r).fst (get_region_snapshot_mem t r)
  refine ⟨d', hd', ?_, ?_, ?_⟩
  · show heapGet (tracker_addAll (get_region_snapshot t r).snd r ss).heap
        (get_region_snapshot t r).fst.short_ref
      = heapGet (tracker_addAll (get_region_snapshot t r).snd r ss).heap d'.short_ref
    rw [hs]
  · show heapGet (tracker_addAll (get_region_snapshot t r).snd r ss).heap
        (get_region_snapshot t r).fst.long_ref
      = heapGet (tracker_addAll (get_region_snapshot t r).snd r ss).heap d'.long_ref
    rw [hl]
  · show heapGet (tracker_addAll (get_region_snapshot t r).snd r ss).heap
        (get_region_snapshot t r).fst.hist_ref
      = heapGet (tracker_addAll (get_region_snapshot t r).snd r ss).heap d'.hist_ref
    rw [hh]

/-! Further association-list lemmas, for the aggregation loops. -/

theorem assocGet_none_iff {α β : Type} [DecidableEq α] (m : List (α × β)) (k : α) :
    assocGet m k = none ↔ k ∉ m.map Prod.fst := by
  induction m with
  | nil => simp [assocGet]
  | cons p t ih =>
    cases p with
    | mk k0 v0 =>
      simp only [assocGet, List.map_cons, List.mem_cons]
      split
      · rename_i h
        subst h
        simp
      · rename_i h
        simp only [ih]
        constructor
        · intro hn hor
          rcases hor with h1 | h1
          · exact h h1.symm
          · exact hn h1
        · intro hn
          intro h1
          exact hn (Or.inr h1)

theorem assocModify_keys {α β : Type} [DecidableEq α] (m : List (α × β)) (k : α) (f : β → β) :
    (assocModify m k f).map Prod.fst = m.map Prod.fst := by
  induction m with
  | nil => simp [assocModify]
  | cons p t ih =>
    cases p with
    | mk k0 v0 =>
      simp only [assocModify]
      split
      · simp
      · simp [ih]

theorem assocGet_modify_ne {α β : Type} [DecidableEq α] (m : List (α × β)) (k k' : α)
    (f : β → β) (hne : k ≠ k') : assocGet (assocModify m k f) k' = assocGet m k' := by
  induction m with
  | nil => simp [assocModify]
  | cons p t ih =>
    cases p with
    | mk k0 v0 =>
      simp only [assocModify]
      split
      · rename_i h
        subst h
        simp [assocGet, hne]
      · rename_i h
        simp only [assocGet]
        split
        · rfl
        · exact ih

theorem assocSet_keys_new {α β : Type} [DecidableEq α] (m : List (α × β)) (k : α) (v : β)
    (h : assocGet m k = none) : (assocSet m k v).map Prod.fst = m.map Prod.fst ++ [k] := by
  induction m with
  | nil => simp [assocSet]
  | cons p t ih =>
    cases p with
    | mk k0 v0 =>
      simp only [assocGet] at h
      simp only [assocSet]
      split
      · rename_i heq
        rw [heq] at h
        simp at h
      · rename_i hne
        rw [if_neg hne] at h
        simp [ih h]

theorem mem_nodup_assocGet {α β : Type} [DecidableEq α] (m : List (α × β)) (k : α) (v : β)
    (hnd : (m.map Prod.fst).Nodup) (hmem : (k, v) ∈ m) : assocGet m k = some v := by
  induction m with
  | nil => simp at hmem
  | cons p t ih =>
    cases p with
    | mk k0 v0 =>
      simp only [List.map_cons, List.nodup_cons] at hnd
      rcases List.mem_cons.mp hmem with h | h
      · injection h with h1 h2
        subst h1
        subst h2
        simp [assocGet]
      · have hk : k ∈ t.map Prod.fst := List.mem_map.mpr ⟨(k, v), h, rfl⟩
        simp only [assocGet]
        split
        · rename_i heq
          subst heq
          exact absurd hk hnd.1
        · exact ih hnd.2 h

/-! Structure of one LOOP 1 step. -/

theorem loop1Step_grouped (analyze : String → Option Analysis)
    (st : List (String × Buckets) × List (String × ℚ)) (e : Event) :
    (regionOf e = none → loop1Step analyze st e = st) ∧
    (∀ r, regionOf e = some r →
      ∃ f : Buckets → Buckets,
        ((loop1Step analyze st e).fst
          = assocModify (if (assocGet st.fst r).isSome then st.fst
              else assocSet st.fst r emptyBuckets) r f
         ∨ (loop1Step analyze st e).fst
          = (if (assocGet st.fst r).isSome then st.fst
              else assocSet st.fst r emptyBuckets)) ∧
        ((loop1Step analyze st e).snd = st.snd
         ∨ ∃ q : ℚ, (loop1Step analyze st e).snd = st.snd ++ [(r, q)])) := by
  constructor
  · intro h
    unfold loop1Step
    rw [h]
  · intro r h
    unfold loop1Step
    rw [h]
    dsimp only
    by_cases hnm : e.event_type = "network_metric"
    · rw [if_pos hnm]
      exact ⟨fun b => { b with network_metrics := b.network_metrics ++ [e] },
        Or.inl rfl, Or.inl rfl⟩
    · rw [if_neg hnm]
      by_cases htk : e.event_type = "social_media_post" ∨ e.event_type = "support_interaction"
      · rw [if_pos htk]
        cases het : effText e with
        | none => exact ⟨id, Or.inr rfl, Or.inl rfl⟩
        | some txt =>
          dsimp only
          cases ha : analyze txt with
          | none => exact ⟨id, Or.inr rfl, Or.inl rfl⟩
          | some a =>
            exact ⟨fun b => { b with analyzed_posts := b.analyzed_posts ++ [(e, a)] },
              Or.inl rfl, Or.inr ⟨score_map (sentimentOf a), rfl⟩⟩
      · rw [if_neg htk]
        exact ⟨id, Or.inr rfl, Or.inl rfl⟩

theorem g0_nodupKeys (st1 : List (String × Buckets)) (r : String)
    (h : (st1.map Prod.fst).Nodup) :
    (((if (assocGet st1 r).isSome then st1 else assocSet st1 r emptyBuckets).map
        Prod.fst)).Nodup := by
  split
  · exact h
  · rename_i hns
    have hnone : assocGet st1 r = none := by
      cases hopt : assocGet st1 r with
      | none => rfl
      | some b => rw [hopt] at hns; simp at hns
    rw [assocSet_keys_new st1 r emptyBuckets hnone]
    have hnm : r ∉ st1.map Prod.fst := (assocGet_none_iff st1 r).mp hnone
    simp [List.nodup_append, h, hnm]

theorem loop1Step_nodupKeys (analyze : String → Option Analysis)
    (st : List (String × Buckets) × List (String × ℚ)) (e : Event)
    (h : (st.fst.map Prod.fst).Nodup) :
    (((loop1Step analyze st e).fst.map Prod.fst)).Nodup := by
  cases hro : regionOf e with
  | none => rw [(loop1Step_grouped analyze st e).1 hro]; exact h
  | some r =>
    obtain ⟨f, hfst, -⟩ := (loop1Step_grouped analyze st e).2 r hro
    rcases hfst with hmod | heq
    · rw [hmod, assocModify_keys]
      exact g0_nodupKeys st.fst r h
    · rw [heq]
      exact g0_nodupKeys st.fst r h

theorem loop1_nodupKeys_aux (analyze : String → Option Analysis) (events : List Event) :
    ∀ st : List (String × Buckets) × List (String × ℚ), (st.fst.map Prod.fst).Nodup →
      ((events.foldl (loop1Step analyze) st).fst.map Prod.fst).Nodup := by
  induction events with
  | nil => intro st h; exact h
  | cons e tl ih =>
    intro st h
    exact ih (loop1Step analyze st e) (loop1Step_nodupKeys analyze st e h)

theorem loop1_nodupKeys (analyze : String → Option Analysis) (events : List Event) :
    (((loop1 analyze events).fst.map Prod.fst)).Nodup := by
  exact loop1_nodupKeys_aux analyze events ([], []) (by simp)

theorem g0_keys_from (st1 : List (String × Buckets)) (r k : String)
    (hk : k ∈ (if (assocGet st1 r).isSome then st1 else assocSet st1 r emptyBuckets).map
        Prod.fst) :
    k ∈ st1.map Prod.fst ∨ k = r := by
  revert hk
  split
  · exact fun hk => Or.inl hk
  · rename_i hns
    have hnone : assocGet st1 r = none := by
      cases hopt : assocGet st1 r with
      | none => rfl
      | some b => rw [hopt] at hns; simp at hns
    rw [assocSet_keys_new st1 r emptyBuckets hnone]
    intro hk
    rcases List.mem_append.mp hk with h1 | h1
    · exact Or.inl h1
    · exact Or.inr (by simpa using h1)

theorem loop1Step_keys_from (analyze : String → Option Analysis)
    (st : List (String × Buckets) × List (String × ℚ)) (e : Event) (k : String)
    (hk : k ∈ (loop1Step analyze st e).fst.map Prod.fst) :
    k ∈ st.fst.map Prod.fst ∨ regionOf e = some k := by
  cases hro : regionOf e with
  | none => rw [(loop1Step_grouped analyze st e).1 hro] at hk; exact Or.inl hk
  | some r =>
    obtain ⟨f, hfst, -⟩ := (loop1Step_grouped analyze st e).2 r hro
    have hg : k ∈ st.fst.map Prod.fst ∨ k = r := by
      rcases hfst with hmod | heq
      · rw [hmod, assocModify_keys] at hk
        exact g0_keys_from st.fst r k hk
      · rw [heq] at hk
        exact g0_keys_from st.fst r k hk
    rcases hg with h1 | h1
    · exact Or.inl h1
    · subst h1
      exact Or.inr rfl

theorem loop1Step_calls_from (analyze : String → Option Analysis)
    (st : List (String × Buckets) × List (String × ℚ)) (e : Event) (p : String × ℚ)
    (hp : p ∈ (loop1Step analyze st e).snd) :
    p ∈ st.snd ∨ regionOf e = some p.fst := by
  cases hro : regionOf e with
  | none => rw [(loop1Step_grouped analyze st e).1 hro] at hp; exact Or.inl hp
  | some r =>
    obtain ⟨f, -, hsnd⟩ := (loop1Step_grouped analyze st e).2 r hro
    rcases hsnd with h1 | ⟨q, h1⟩
    · rw [h1] at hp
      exact Or.inl hp
    · rw [h1] at hp
      rcases List.mem_append.mp hp with h2 | h2
      · exact Or.inl h2
      · have : p = (r, q) := by simpa using h2
        subst this
        exact Or.inr rfl

theorem loop1_from_aux (analyze : String → Option Analysis) (events : List Event) :
    ∀ st : List (String × Buckets) × List (String × ℚ),
      (∀ k ∈ (events.foldl (loop1Step analyze) st).fst.map Prod.fst,
        k ∈ st.fst.map Prod.fst ∨ ∃ e ∈ events, regionOf e = some k) ∧
      (∀ p ∈ (events.foldl (loop1Step analyze) st).snd,
        p ∈ st.snd ∨ ∃ e ∈ events, regionOf e = some p.fst) := by
  induction events with
  | nil =>
    intro st
    exact ⟨fun k hk => Or.inl hk, fun p hp => Or.inl hp⟩
  | cons e tl ih =>
    intro st
    constructor
    · intro k hk
      rcases ((ih (loop1Step analyze st e)).1 k hk) with h1 | ⟨e', he', hre⟩
      · rcases loop1Step_keys_from analyze st e k h1 with h2 | h2
        · exact Or.inl h2
        · exact Or.inr ⟨e, List.mem_cons_self e tl, h2⟩
      · exact Or.inr ⟨e', List.mem_cons_of_mem e he', hre⟩
    · intro p hp
      rcases ((ih (loop1Step analyze st e)).2 p hp) with h1 | ⟨e', he', hre⟩
      · rcases loop1Step_calls_from analyze st e p h1 with h2 | h2
        · exact Or.inl h2
        · exact Or.inr ⟨e, List.mem_cons_self e tl, h2⟩
      · exact Or.inr ⟨e', List.mem_cons_of_mem e he', hre⟩

/-! Emptiness invariant: a region touched only by events whose
classification cannot succeed never gets anything into its buckets. -/

theorem g0_empty (st1 : List (String × Buckets)) (r : String)
    (hP : assocGet st1 r = none ∨ assocGet st1 r = some emptyBuckets) :
    assocGet (if (assocGet st1 r).isSome then st1 else assocSet st1 r emptyBuckets) r
      = some emptyBuckets := by
  split
  · rename_i hs
    rcases hP with h | h
    · rw [h] at hs; simp at hs
    · exact h
  · exact assocGet_set_self st1 r emptyBuckets

theorem g0_other (st1 : List (String × Buckets)) (r r' : String) (hne : r' ≠ r) :
    assocGet (if (assocGet st1 r').isSome then st1 else assocSet st1 r' emptyBuckets) r
      = assocGet st1 r := by
  split
  · rfl
  · exact assocGet_set_ne st1 r' r emptyBuckets hne

theorem loop1Step_empty_preserved (analyze : String → Option Analysis) (r : String)
    (st : List (String × Buckets) × List (String × ℚ)) (e : Event)
    (he : regionOf e = some r →
      e.event_type ≠ "network_metric" ∧ ∀ txt, effText e = some txt → analyze txt = none)
    (hP : assocGet st.fst r = none ∨ assocGet st.fst r = some emptyBuckets) :
    assocGet (loop1Step analyze st e).fst r = none ∨
    assocGet (loop1Step analyze st e).fst r = some emptyBuckets := by
  cases hro : regionOf e with
  | none => rw [(loop1Step_grouped analyze st e).1 hro]; exact hP
  | some r' =>
    by_cases hrr : r' = r
    · subst hrr
      obtain ⟨hnm, htxt⟩ := he hro
      unfold loop1Step
      rw [hro]
      dsimp only
      rw [if_neg hnm]
      by_cases htk : e.event_type = "social_media_post" ∨ e.event_type = "support_interaction"
      · rw [if_pos htk]
        cases het : effText e with
        | none => exact Or.inr (g0_empty st.fst r' hP)
        | some txt =>
          dsimp only
          rw [htxt txt het]
          exact Or.inr (g0_empty st.fst r' hP)
      · rw [if_neg htk]
        exact Or.inr (g0_empty st.fst r' hP)
    · obtain ⟨f, hfst, -⟩ := (loop1Step_grouped analyze st e).2 r' hro
      rcases hfst with hmod | heq
      · rw [hmod, assocGet_modify_ne _ _ _ _ hrr, g0_other st.fst r r' hrr]
        exact hP
      · rw [heq, g0_other st.fst r r' hrr]
        exact hP

theorem loop1_empty_aux (analyze : String → Option Analysis) (r : String) (events : List Event)
    (he : ∀ e ∈ events, regionOf e = some r →
      e.event_type ≠ "network_metric" ∧ ∀ txt, effText e = some txt → analyze txt = none) :
    ∀ st : List (String × Buckets) × List (String × ℚ),
      (assocGet st.fst r = none ∨ assocGet st.fst r = some emptyBuckets) →
      (assocGet (events.foldl (loop1Step analyze) st).fst r = none ∨
       assocGet (events.foldl (loop1Step analyze) st).fst r = some emptyBuckets) := by
  induction events with
  | nil => intro st hP; exact hP
  | cons e tl ih =>
    intro st hP
    exact ih (fun e' he' => he e' (List.mem_cons_of_mem e he'))
      (loop1Step analyze st e)
      (loop1Step_empty_preserved analyze r st e (he e (List.mem_cons_self e tl)) hP)

/-! Membership in LOOP 2's output. -/

theorem mem_outputRegions (g : List (String × Buckets)) (r : String)
    (hmem : r ∈ outputRegions g) :
    ∃ b, (r, b) ∈ g ∧ keepRegion (r, b) = true := by
  unfold outputRegions loop2Output at hmem
  obtain ⟨p, hp, hpr⟩ := List.mem_map.mp hmem
  obtain ⟨hpg, hkeep⟩ := List.mem_filter.mp hp
  cases p with
  | mk pr pb =>
    cases hpr
    exact ⟨pb, hpg, hkeep⟩

theorem not_output_of_empty (g : List (String × Buckets)) (r : String) (b : Buckets)
    (hnd : (g.map Prod.fst).Nodup) (hget : assocGet g r = some b)
    (hnm : b.network_metrics = []) (hap : b.analyzed_posts = []) :
    r ∉ outputRegions g := by
  intro hmem
  obtain ⟨b', hbg, hkeep⟩ := mem_outputRegions g r hmem
  have hb' : assocGet g r = some b' := mem_nodup_assocGet g r b' hnd hbg
  rw [hget] at hb'
  injection hb' with hb'
  subst hb'
  unfold keepRegion at hkeep
  rw [hnm, hap] at hkeep
  simp at hkeep

theorem global_not_output (g : List (String × Buckets)) :
    "global" ∉ outputRegions g := by
  intro hmem
  obtain ⟨b, -, hkeep⟩ := mem_outputRegions g "global" hmem
  unfold keepRegion at hkeep
  simp at hkeep

/-! Claim C5: regions with nothing to decide on are excluded. -/

/-- C5: a grouped region whose buckets are both empty is excluded from
LOOP 2's per-region output; in particular a region all of whose events
are text events that the classifier fails on (or that are not text
events at all, or carry no usable text) is absent from the output. -/
theorem claim_C5_empty_region_excluded (analyze : String → Option Analysis)
    (events : List Event) (r : String) :
    (∀ b, assocGet (loop1 analyze events).fst r = some b →
       b.network_metrics = [] → b.analyzed_posts = [] →
       r ∉ outputRegions (loop1 analyze events).fst) ∧
    ((∀ e ∈ events, regionOf e = some r →
        e.event_type ≠ "network_metric" ∧ ∀ txt, effText e = some txt → analyze txt = none) →
      r ∉ outputRegions (loop1 analyze events).fst) := by
  constructor
  · intro b hget hnm hap
    exact not_output_of_empty _ r b (loop1_nodupKeys analyze events) hget hnm hap
  · intro he
    have hP := loop1_empty_aux analyze r events he ([], []) (Or.inl rfl)
    rcases hP with h | h
    · intro hmem
      obtain ⟨b', hbg, -⟩ := mem_outputRegions _ r hmem
      have hkr : r ∈ (loop1 analyze events).fst.map Prod.fst :=
        List.mem_map.mpr ⟨(r, b'), hbg, rfl⟩
      exact ((assocGet_none_iff _ r).mp h) hkr
    · exact not_output_of_empty _ r emptyBuckets (loop1_nodupKeys analyze events) h rfl rfl

/-- Witness for C5: a single text event for Austin whose classification
fails leaves Austin out of the output. -/
theorem claim_C5_empty_region_excluded_witness :
    (∀ e ∈ ([⟨some "Austin", "social_media_post", some "bad service", none⟩] : List Event),
        regionOf e = some "Austin" →
        e.event_type ≠ "network_metric" ∧
        ∀ txt, effText e = some txt → (fun _ : String => (none : Option Analysis)) txt = none) ∧
    "Austin" ∉ outputRegions (loop1 (fun _ => none)
        [⟨some "Austin", "social_media_post", some "bad service", none⟩]).fst :=
  ⟨fun e he _ => by
      rw [List.mem_singleton] at he
      subst he
      exact ⟨by decide, fun txt _ => rfl⟩,
   (claim_C5_empty_region_excluded (fun _ => none)
      [⟨some "Austin", "social_media_post", some "bad service", none⟩] "Austin").2
      (fun e he _ => by
        rw [List.mem_singleton] at he
        subst he
        exact ⟨by decide, fun txt _ => rfl⟩)⟩

/-! Claim C6: events with region global or missing region.  The claim as
stated fails: LOOP 1 does group global events and does feed their
successfully classified text to the tracker; only LOOP 2 skips the
global key. -/

/-- C6 counterexample: a successfully classified global text event puts a
global key into grouped_data and produces a tracker call for region
global. -/
theorem claim_C6_counterexample :
    (assocGet (loop1 (fun _ => some ⟨some "negative"⟩)
        [⟨some "global", "social_media_post", some "network is down", none⟩]).fst
        "global").isSome = true ∧
    ((loop1 (fun _ => some ⟨some "negative"⟩)
        [⟨some "global", "social_media_post", some "network is down", none⟩]).snd).map
        Prod.fst = ["global"] := by
  decide

/-- C6 (amended): events with a missing (falsy) region are excluded from
grouping and from tracker updates — every grouped key and every tracker
call traces back to an event with that truthy region — and the global
key never reaches LOOP 2's per-region output; but global events are
grouped under a global key in LOOP 1 and their classified text does
update the tracker under region global. -/
theorem claim_C6_global_missing (analyze : String → Option Analysis) (events : List Event) :
    "global" ∉ outputRegions (loop1 analyze events).fst ∧
    (∀ k ∈ (loop1 analyze events).fst.map Prod.fst, ∃ e ∈ events, regionOf e = some k) ∧
    (∀ p ∈ (loop1 analyze events).snd, ∃ e ∈ events, regionOf e = some p.fst) := by
  refine ⟨global_not_output _, ?_, ?_⟩
  · intro k hk
    rcases (loop1_from_aux analyze events ([], [])).1 k hk with h1 | h1
    · simp at h1
    · exact h1
  · intro p hp
    rcases (loop1_from_aux analyze events ([], [])).2 p hp with h1 | h1
    · simp at h1
    · exact h1

end InsightsFlow
